import Mathlib

/-!
Verification of the graph-construction core of `jarvisdgl/data.py`.

The development shallowly embeds the functions `canonize_edge`,
`build_undirected_edgedata`, `nearest_neighbor_edges`, `voronoi_edges` and
`dgl_multigraph`. Site indices are `ℕ`, periodic images are integer triples,
and real-valued coordinates and distances are modelled by `ℚ` (the code's
arithmetic on them — subtraction, negation, matrix application — is exact,
so the rational model is faithful for the stated properties).

External collaborators (pymatgen's neighbor query and Voronoi tessellation)
are not part of the repository; functions that call them are parametrised
over a model of the collaborator, and the concrete end-to-end scenario uses
a query model built from the spec's description of the neighbor query.
-/

/-- A periodic image: an integer 3-tuple identifying a lattice translation. -/
abbrev Image : Type := ℤ × ℤ × ℤ

/-- Componentwise subtraction of integer triples (`np.subtract` on images). -/
def imSub (a b : Image) : Image := (a.1 - b.1, a.2.1 - b.2.1, a.2.2 - b.2.2)

/-- Componentwise negation of an integer triple. -/
def imNeg (a : Image) : Image := (-a.1, -a.2.1, -a.2.2)

/-- Embedding of `canonize_edge` (data.py lines 111-135): sort the vertex
ids (swapping the images along with them), then shift both periodic images
so that the (possibly swapped) source image becomes `(0,0,0)`. -/
def canonize_edge (src_id dst_id : ℕ) (src_image dst_image : Image) :
    ℕ × ℕ × Image × Image :=
  -- store directed edges src_id <= dst_id
  let s := if dst_id < src_id then dst_id else src_id
  let d := if dst_id < src_id then src_id else dst_id
  let si := if dst_id < src_id then dst_image else src_image
  let di := if dst_id < src_id then src_image else dst_image
  -- shift periodic images so that src is in (0,0,0) image
  if si ≠ ((0, 0, 0) : Image) then (s, d, imSub si si, imSub di si)
  else (s, d, si, di)

lemma canonize_edge_fst_le (src_id dst_id : ℕ) (si di : Image) :
    (canonize_edge src_id dst_id si di).1 ≤
      (canonize_edge src_id dst_id si di).2.1 := by
  unfold canonize_edge
  by_cases h : dst_id < src_id <;> simp [h] <;> split <;> simp <;> omega

lemma canonize_edge_src_image_eq (src_id dst_id : ℕ) (si di : Image) :
    (canonize_edge src_id dst_id si di).2.2.1 = ((0, 0, 0) : Image) := by
  unfold canonize_edge
  by_cases h : dst_id < src_id <;> simp [h] <;> split <;>
    simp_all [imSub, Prod.ext_iff]

lemma canonize_edge_of_canonical (src_id dst_id : ℕ) (si di : Image)
    (h1 : src_id ≤ dst_id) (h2 : si = ((0, 0, 0) : Image)) :
    canonize_edge src_id dst_id si di = (src_id, dst_id, si, di) := by
  unfold canonize_edge
  have h3 : ¬ dst_id < src_id := not_lt.mpr h1
  simp [h3, h2]

/-- C1: for every `src_id`, `dst_id`, `src_image`, `dst_image`, the result of
`canonize_edge` has its first component less than or equal to its second
component, and the returned source image equals `(0,0,0)`. -/
theorem canonize_edge_canonical_form (src_id dst_id : ℕ) (si di : Image) :
    (canonize_edge src_id dst_id si di).1 ≤
      (canonize_edge src_id dst_id si di).2.1 ∧
    (canonize_edge src_id dst_id si di).2.2.1 = ((0, 0, 0) : Image) :=
  ⟨canonize_edge_fst_le src_id dst_id si di,
   canonize_edge_src_image_eq src_id dst_id si di⟩

/-- C10: `canonize_edge` is idempotent — applying it to its own output
returns that output unchanged — and whenever `src_id ≤ dst_id` and
`src_image = (0,0,0)` already hold it returns its arguments unchanged. -/
theorem canonize_edge_idempotent (src_id dst_id : ℕ) (si di : Image) :
    (canonize_edge (canonize_edge src_id dst_id si di).1
        (canonize_edge src_id dst_id si di).2.1
        (canonize_edge src_id dst_id si di).2.2.1
        (canonize_edge src_id dst_id si di).2.2.2 =
      canonize_edge src_id dst_id si di) ∧
    (src_id ≤ dst_id → si = ((0, 0, 0) : Image) →
      canonize_edge src_id dst_id si di = (src_id, dst_id, si, di)) := by
  constructor
  · rw [canonize_edge_of_canonical _ _ _ _
      (canonize_edge_fst_le src_id dst_id si di)
      (canonize_edge_src_image_eq src_id dst_id si di)]
  · exact canonize_edge_of_canonical src_id dst_id si di

/-- Witness for C10: at `src_id = 0`, `dst_id = 1`, `si = (0,0,0)`,
`di = (2,0,-1)`, the hypotheses of the second conjunct hold concretely. -/
theorem canonize_edge_idempotent_witness :
    canonize_edge 0 1 ((0,0,0) : Image) ((2,0,-1) : Image) = (0, 1, (0,0,0), (2,0,-1)) :=
  (canonize_edge_idempotent 0 1 (0,0,0) (2,0,-1)).2 (by decide) rfl

/-- C2 counterexample: with `src_id = dst_id = 0`, `src_image = (0,0,0)`,
`dst_image = (1,0,0)`, the two discovery directions give different resulting
dst images — `(1,0,0)` versus `(-1,0,0)` — so the claim fails in the
`src_id = dst_id` case it explicitly includes. -/
theorem canonize_edge_symm_counterexample :
    (canonize_edge 0 0 ((0,0,0) : Image) ((1,0,0) : Image)).2.2.2 ≠
      (canonize_edge 0 0 ((1,0,0) : Image) ((0,0,0) : Image)).2.2.2 := by
  decide

/-- C2 (amended): for `src_id ≠ dst_id`, `canonize_edge` applied in either
direction of discovery returns the same full result (same id pair and
same dst image); for `src_id = dst_id`, the two directions return the same
id pair but dst images that are negations of each other. -/
theorem canonize_edge_symm (a b : ℕ) (ia ib : Image) :
    (a ≠ b → canonize_edge a b ia ib = canonize_edge b a ib ia) ∧
    ((canonize_edge a a ia ib).1 = a ∧ (canonize_edge a a ia ib).2.1 = a ∧
      (canonize_edge a a ia ib).2.2.2 =
        imNeg ((canonize_edge a a ib ia).2.2.2)) := by
  constructor
  · intro hne
    rcases lt_or_gt_of_ne hne with h | h
    · have h1 : ¬ b < a := by omega
      have h2 : a < b := h
      unfold canonize_edge
      simp [h1, h2]
    · have h1 : b < a := h
      have h2 : ¬ a < b := by omega
      unfold canonize_edge
      simp [h1, h2]
  · have hlt : ¬ a < a := lt_irrefl a
    unfold canonize_edge
    by_cases h1 : ia = ((0,0,0) : Image) <;> by_cases h2 : ib = ((0,0,0) : Image) <;>
      · obtain ⟨x1, x2, x3⟩ := ia
        obtain ⟨y1, y2, y3⟩ := ib
        simp_all [imSub, imNeg, Prod.ext_iff]

/-- Witness for C2 (amended): at `a = 0`, `b = 1` the hypothesis `a ≠ b`
of the first conjunct is discharged concretely. -/
theorem canonize_edge_symm_witness :
    canonize_edge 0 1 ((0,0,0) : Image) ((1,2,3) : Image) =
      canonize_edge 1 0 ((1,2,3) : Image) ((0,0,0) : Image) :=
  (canonize_edge_symm 0 1 (0,0,0) (1,2,3)).1 (by decide)

/-- A 3-vector of rationals (fractional or cartesian coordinates). -/
abbrev Vec3 : Type := ℚ × ℚ × ℚ

/-- Componentwise addition of 3-vectors. -/
def vAdd (a b : Vec3) : Vec3 := (a.1 + b.1, a.2.1 + b.2.1, a.2.2 + b.2.2)

/-- Componentwise subtraction of 3-vectors. -/
def vSub (a b : Vec3) : Vec3 := (a.1 - b.1, a.2.1 - b.2.1, a.2.2 - b.2.2)

/-- Componentwise negation of a 3-vector. -/
def vNeg (a : Vec3) : Vec3 := (-a.1, -a.2.1, -a.2.2)

/-- Scaling of a 3-vector by a rational. -/
def vSmul (c : ℚ) (a : Vec3) : Vec3 := (c * a.1, c * a.2.1, c * a.2.2)

/-- Cast a periodic image to a rational 3-vector. -/
def imToVec (a : Image) : Vec3 := ((a.1 : ℚ), (a.2.1 : ℚ), (a.2.2 : ℚ))

/-- A pymatgen `Structure` as the code uses it: a lattice given by its three
basis rows, and the sites' fractional coordinates in site-index order. -/
structure Structure3 where
  latA : Vec3
  latB : Vec3
  latC : Vec3
  fracCoords : List Vec3

/-- `lattice.get_cartesian_coords`: a fractional coordinate is sent to the
linear combination of the basis rows by its components. -/
def getCartesianCoords (st : Structure3) (f : Vec3) : Vec3 :=
  vAdd (vSmul f.1 st.latA) (vAdd (vSmul f.2.1 st.latB) (vSmul f.2.2 st.latC))

/-- `structure[i].frac_coords` (out-of-range indices default to the origin;
the claims only involve in-range site indices). -/
def fracCoord (st : Structure3) (i : ℕ) : Vec3 := st.fracCoords.getD i (0, 0, 0)

/-- The canonical edge set `Dict[Tuple[int, int], Set[Tuple[int, int, int]]]`,
modelled as an association list from id pairs to lists of dst images. -/
abbrev EdgeDict : Type := List ((ℕ × ℕ) × List Image)

/-- Embedding of `build_undirected_edgedata` (data.py lines 138-168): for
each `(src_id, dst_id)` key and each dst image, compute the cartesian
displacement `d` from src to the shifted periodic image of dst, then add
edges for both directions: `(src_id, dst_id, d)` and `(dst_id, src_id, -d)`.
The code's three parallel lists `u, v, r` are fused into one list of
`(u, v, r)` triples (same entries, same order). -/
def build_undirected_edgedata (st : Structure3) (edges : EdgeDict) :
    List (ℕ × ℕ × Vec3) :=
  edges.flatMap fun kv =>
    kv.2.flatMap fun dst_image =>
      -- fractional coordinate for periodic image of dst
      let dst_coord := vAdd (fracCoord st kv.1.2) (imToVec dst_image)
      -- cartesian displacement vector pointing from src -> dst
      let d := getCartesianCoords st (vSub dst_coord (fracCoord st kv.1.1))
      [(kv.1.1, kv.1.2, d), (kv.1.2, kv.1.1, vNeg d)]

/-- All `(EdgeKey, image)` pairs of a canonical edge set, in order. -/
def edgePairs (edges : EdgeDict) : List ((ℕ × ℕ) × Image) :=
  edges.flatMap fun kv => kv.2.map fun img => (kv.1, img)

/-- The cartesian displacement the materializer computes for one
`(EdgeKey, image)` pair. -/
def pairDisp (st : Structure3) (p : (ℕ × ℕ) × Image) : Vec3 :=
  getCartesianCoords st
    (vSub (vAdd (fracCoord st p.1.2) (imToVec p.2)) (fracCoord st p.1.1))

/-- C3: `build_undirected_edgedata` emits, for each `(EdgeKey, image)` pair
of the edge set, exactly the two directed edges `(src, dst, d)` and
`(dst, src, -d)`; the two displacements are exact negations (they sum to
the zero vector), and the total number of directed edges is twice the
number of `(key, image)` pairs. -/
theorem build_undirected_edgedata_pairing (st : Structure3) (edges : EdgeDict) :
    build_undirected_edgedata st edges =
      (edgePairs edges).flatMap (fun p =>
        [(p.1.1, p.1.2, pairDisp st p), (p.1.2, p.1.1, vNeg (pairDisp st p))]) ∧
    (∀ p, vAdd (pairDisp st p) (vNeg (pairDisp st p)) = ((0, 0, 0) : Vec3)) ∧
    (build_undirected_edgedata st edges).length = 2 * (edgePairs edges).length := by
  refine ⟨?_, ?_, ?_⟩
  · simp [build_undirected_edgedata, edgePairs, List.flatMap_assoc, List.flatMap_map,
      pairDisp]
  · intro p
    simp [vAdd, vNeg, Prod.ext_iff]
  · have h : build_undirected_edgedata st edges =
        (edgePairs edges).flatMap (fun p =>
          [(p.1.1, p.1.2, pairDisp st p), (p.1.2, p.1.1, vNeg (pairDisp st p))]) := by
      simp [build_undirected_edgedata, edgePairs, List.flatMap_assoc, List.flatMap_map,
        pairDisp]
    rw [h]
    simp [List.length_flatMap, Function.comp_def, List.map_const, List.sum_replicate,
      Nat.mul_comm]

/-- One entry of a pymatgen neighbor list as the code reads it: `x[1]` the
distance, `x[2]` the neighbor site index, `x[3]` the periodic image.
Distances are modelled as rationals; any order-preserving encoding of the
real distances (the concrete cubic model below uses squared distances)
gives the same sorting and shell-filtering behavior. -/
structure Nbr where
  dist : ℚ
  idx : ℕ
  image : Image
deriving DecidableEq

/-- The sort key of `sorted(neighborlist, key=lambda x: x[1])`. -/
def nbrLE (x y : Nbr) : Prop := x.dist ≤ y.dist

instance : DecidableRel nbrLE := fun x y => inferInstanceAs (Decidable (x.dist ≤ y.dist))

instance : IsTotal Nbr nbrLE := ⟨fun x y => le_total x.dist y.dist⟩

instance : IsTrans Nbr nbrLE := ⟨fun _ _ _ h1 h2 => le_trans h1 h2⟩

/-- Model of the external collaborators of `nearest_neighbor_edges`:
`query c` is `structure.get_all_neighbors(c)` (the per-site neighbor lists
within cutoff `c`), and `maxDim` is `max(lat.a, lat.b, lat.c)`. -/
structure NNModel where
  query : ℚ → List (List Nbr)
  maxDim : ℚ

/-- `min(len(neighborlist) for neighborlist in all_neighbors)`. -/
def minNbrs (all_neighbors : List (List Nbr)) : ℕ :=
  ((all_neighbors.map List.length).min?).getD 0

/-- Insertion into the `defaultdict(set)`: add the image to the set at
`key`, creating the entry if absent; an already-present image leaves the
set unchanged. -/
def insertImage (edges : EdgeDict) (key : ℕ × ℕ) (img : Image) : EdgeDict :=
  match edges with
  | [] => [(key, [img])]
  | (k, imgs) :: rest =>
    if k = key then (k, if img ∈ imgs then imgs else imgs ++ [img]) :: rest
    else (k, imgs) :: insertImage rest key img

/-- The per-site retention step of `nearest_neighbor_edges` (data.py lines
211-224): sort the neighbor list on distance (a stable sort, as Python's
`sorted`), read off the distance of the `max_neighbors`-th closest
neighbor, and keep all neighbors out to that shell. -/
def siteRetained (neighborlist : List Nbr) (max_neighbors : ℕ) : List Nbr :=
  -- sort on distance
  let sorted := List.insertionSort nbrLE neighborlist
  -- find the distance to the k-th nearest neighbor
  let max_dist := (sorted.map Nbr.dist).getD (max_neighbors - 1) 0
  -- keep all edges out to the neighbor shell of the k-th neighbor
  sorted.filter (fun nbr => decide (nbr.dist ≤ max_dist))

/-- The edge-accumulation pass of `nearest_neighbor_edges` (lines 208-234):
for each site in order, canonize each retained neighbor edge
`(site_idx, dst, (0,0,0), image)` and insert the resulting dst image at the
canonical key. -/
def buildEdges (all_neighbors : List (List Nbr)) (max_neighbors : ℕ) : EdgeDict :=
  all_neighbors.enum.foldl
    (fun edges p =>
      (siteRetained p.2 max_neighbors).foldl
        (fun edges nbr =>
          let c := canonize_edge p.1 nbr.idx (0, 0, 0) nbr.image
          insertImage edges (c.1, c.2.1) c.2.2.2)
        edges)
    []

/-- The cutoff update of the retry (lines 185-192): jump to the largest
lattice cell dimension if the current cutoff is below it, otherwise double
the current cutoff. -/
def nextCutoff (m : NNModel) (cutoff : ℚ) : ℚ :=
  if cutoff < m.maxDim then m.maxDim else 2 * cutoff

/-- Embedding of `nearest_neighbor_edges` (lines 171-234), parametrised over
the neighbor-query model. The Python function retries by calling itself with
a grown cutoff, with no bound on the recursion; the embedding adds a `fuel`
argument to make the recursion structural, returning `none` exactly when the
code's recursion would still be running after `fuel` attempts. -/
def nearest_neighbor_edges (m : NNModel) (cutoff : ℚ) (max_neighbors : ℕ) :
    ℕ → Option EdgeDict
  | 0 => none
  | fuel + 1 =>
    let all_neighbors := m.query cutoff
    -- if a site has too few neighbors, increase the cutoff radius
    if minNbrs all_neighbors < max_neighbors then
      nearest_neighbor_edges m (nextCutoff m cutoff) max_neighbors fuel
    else
      some (buildEdges all_neighbors max_neighbors)

/-- C4: when some site has fewer than `max_neighbors` candidates within the
current cutoff, `nearest_neighbor_edges` retries the whole search from
scratch with the new cutoff — the largest lattice cell dimension if the
current cutoff is below it, twice the current cutoff otherwise — and when
every site has enough candidates, the result is built from that final
query alone. -/
theorem nearest_neighbor_edges_retry (m : NNModel) (cutoff : ℚ)
    (max_neighbors fuel : ℕ) :
    (minNbrs (m.query cutoff) < max_neighbors →
      nearest_neighbor_edges m cutoff max_neighbors (fuel + 1) =
        nearest_neighbor_edges m
          (if cutoff < m.maxDim then m.maxDim else 2 * cutoff)
          max_neighbors fuel) ∧
    (¬ minNbrs (m.query cutoff) < max_neighbors →
      nearest_neighbor_edges m cutoff max_neighbors (fuel + 1) =
        some (buildEdges (m.query cutoff) max_neighbors)) := by
  constructor <;> intro h <;> simp [nearest_neighbor_edges, nextCutoff, h]

/-- A neighbor with no data, for the concrete query models below. -/
def trivialNbr : Nbr := ⟨0, 0, (0, 0, 0)⟩

/-- A family of query models: one site that reports no neighbors until the
cutoff reaches the threshold `t`, then exactly one neighbor; the largest
lattice cell dimension is 1. -/
def threshModel (t : ℚ) : NNModel :=
  ⟨fun c => if t ≤ c then [[trivialNbr]] else [[]], 1⟩

/-- Witness for C4: with the threshold-2 model at cutoff 1, the single site
has 0 < 1 candidates, and the search retries at the doubled cutoff 2. -/
theorem nearest_neighbor_edges_retry_witness :
    nearest_neighbor_edges (threshModel 2) 1 1 2 =
      nearest_neighbor_edges (threshModel 2)
        (if (1 : ℚ) < (threshModel 2).maxDim then (threshModel 2).maxDim
         else 2 * 1) 1 1 :=
  (nearest_neighbor_edges_retry (threshModel 2) 1 1 1).1 (by decide)

/-- The distance of the `k`-th closest neighbor, 1-indexed: the `k`-th
smallest entry of the neighbor distance list. -/
def kthNearestDist (neighborlist : List Nbr) (k : ℕ) : ℚ :=
  (List.insertionSort (· ≤ ·) (neighborlist.map Nbr.dist)).getD (k - 1) 0

lemma map_dist_insertionSort (l : List Nbr) :
    (List.insertionSort nbrLE l).map Nbr.dist =
      List.insertionSort (· ≤ ·) (l.map Nbr.dist) := by
  have h1 : List.Sorted (· ≤ ·) ((List.insertionSort nbrLE l).map Nbr.dist) :=
    List.Pairwise.map Nbr.dist (fun _ _ hab => hab)
      (List.sorted_insertionSort nbrLE l)
  have h2 : List.Sorted (· ≤ ·) (List.insertionSort (· ≤ ·) (l.map Nbr.dist)) :=
    List.sorted_insertionSort (· ≤ ·) (l.map Nbr.dist)
  have hp : ((List.insertionSort nbrLE l).map Nbr.dist).Perm
      (List.insertionSort (· ≤ ·) (l.map Nbr.dist)) :=
    ((List.perm_insertionSort nbrLE l).map Nbr.dist).trans
      (List.perm_insertionSort (· ≤ ·) (l.map Nbr.dist)).symm
  exact List.eq_of_perm_of_sorted hp h1 h2

lemma kthNearestDist_eq_sorted_getD (l : List Nbr) (k : ℕ) :
    ((List.insertionSort nbrLE l).map Nbr.dist).getD (k - 1) 0 =
      kthNearestDist l k := by
  rw [kthNearestDist, map_dist_insertionSort]

lemma take_k_dist_le_kth (l : List Nbr) (k : ℕ) (hk1 : 1 ≤ k)
    (hk : k ≤ l.length) :
    ∀ x ∈ (List.insertionSort nbrLE l).take k, x.dist ≤ kthNearestDist l k := by
  intro x hx
  have hslen : (List.insertionSort nbrLE l).length = l.length :=
    (List.perm_insertionSort nbrLE l).length_eq
  have hkl : k - 1 < (List.insertionSort nbrLE l).length := by omega
  have hkth : kthNearestDist l k =
      ((List.insertionSort nbrLE l).get ⟨k - 1, hkl⟩).dist := by
    rw [← kthNearestDist_eq_sorted_getD]
    rw [List.getD_eq_getElem _ 0 (by simpa using hkl)]
    simp [List.getElem_map]
  rw [List.mem_take_iff_getElem] at hx
  obtain ⟨i, hi, hxi⟩ := hx
  have hi2 : i < (List.insertionSort nbrLE l).length := by omega
  rcases Nat.lt_or_ge i (k - 1) with hik | hik
  · have hsorted := List.sorted_insertionSort nbrLE l
    have := List.pairwise_iff_getElem.mp hsorted i (k - 1) hi2 hkl hik
    rw [hkth, ← hxi]
    simpa [nbrLE, List.get_eq_getElem] using this
  · have hieq : i = k - 1 := by omega
    rw [hkth, ← hxi]
    simp [List.get_eq_getElem, hieq]

/-- C6: for a site with at least `max_neighbors` neighbor candidates
(`max_neighbors ≥ 1`), the retention step keeps exactly the neighbors whose
distance is at most the distance of the `max_neighbors`-th closest neighbor
(1-indexed) — both membership-wise and with multiplicity, so ties at that
shell are all retained and never broken — and at least `max_neighbors`
neighbors are kept. -/
theorem siteRetained_kth_shell (l : List Nbr) (k : ℕ) (hk1 : 1 ≤ k)
    (hk : k ≤ l.length) :
    (∀ x : Nbr, x ∈ siteRetained l k ↔ x ∈ l ∧ x.dist ≤ kthNearestDist l k) ∧
    (siteRetained l k).length =
      (l.filter (fun x => decide (x.dist ≤ kthNearestDist l k))).length ∧
    k ≤ (siteRetained l k).length := by
  have hperm := List.perm_insertionSort nbrLE l
  have hret : siteRetained l k =
      (List.insertionSort nbrLE l).filter
        (fun nbr => decide (nbr.dist ≤ kthNearestDist l k)) := by
    rw [siteRetained, kthNearestDist_eq_sorted_getD]
  refine ⟨?_, ?_, ?_⟩
  · intro x
    rw [hret, List.mem_filter]
    simp [hperm.mem_iff]
  · rw [hret]
    exact (hperm.filter _).length_eq
  · rw [hret]
    have hsplit := List.take_append_drop k (List.insertionSort nbrLE l)
    rw [← hsplit, List.filter_append]
    have htake : ((List.insertionSort nbrLE l).take k).filter
        (fun nbr => decide (nbr.dist ≤ kthNearestDist l k)) =
        (List.insertionSort nbrLE l).take k := by
      apply List.filter_eq_self.mpr
      intro x hx
      simpa using take_k_dist_le_kth l k hk1 hk x hx
    rw [htake, List.length_append]
    have hlen : ((List.insertionSort nbrLE l).take k).length = k :=
      List.length_take_of_le (by rw [hperm.length_eq]; exact hk)
    omega

/-- A concrete neighbor list with a tie at the second shell: distances
1, 2, 2, 3. -/
def tieList : List Nbr :=
  [⟨1, 1, (0, 0, 0)⟩, ⟨2, 2, (0, 0, 0)⟩, ⟨2, 3, (0, 0, 0)⟩, ⟨3, 4, (0, 0, 0)⟩]

/-- Witness for C6: on the tie list with `max_neighbors = 2`, both
hypotheses hold concretely, and the retained count equals the count of
neighbors within the 2nd-nearest shell (which is 3 > 2: the tie is kept). -/
theorem siteRetained_kth_shell_witness :
    ((siteRetained tieList 2).length =
      (tieList.filter (fun x => decide (x.dist ≤ kthNearestDist tieList 2))).length ∧
      2 ≤ (siteRetained tieList 2).length) ∧
    (tieList.filter (fun x => decide (x.dist ≤ kthNearestDist tieList 2))).length = 3 :=
  ⟨⟨(siteRetained_kth_shell tieList 2 (by decide) (by decide)).2.1,
    (siteRetained_kth_shell tieList 2 (by decide) (by decide)).2.2⟩,
   by decide⟩

lemma threshModel_query_lt (n j : ℕ) (h : j < n) :
    (threshModel ((2 : ℚ) ^ n)).query ((2 : ℚ) ^ j) = [[]] := by
  have hq : ¬ ((2 : ℚ) ^ n ≤ (2 : ℚ) ^ j) :=
    not_le.mpr (pow_lt_pow_right₀ (by norm_num) h)
  simp [threshModel, hq]

lemma threshModel_nextCutoff (n j : ℕ) :
    nextCutoff (threshModel ((2 : ℚ) ^ n)) ((2 : ℚ) ^ j) = (2 : ℚ) ^ (j + 1) := by
  have h1 : ¬ ((2 : ℚ) ^ j < (threshModel ((2 : ℚ) ^ n)).maxDim) := by
    simp only [threshModel]
    exact not_lt.mpr (one_le_pow₀ (by norm_num))
  simp only [nextCutoff, h1, if_neg, ite_false]
  ring

lemma threshModel_none (n : ℕ) :
    ∀ fuel j : ℕ, j + fuel ≤ n →
      nearest_neighbor_edges (threshModel ((2 : ℚ) ^ n)) ((2 : ℚ) ^ j) 1 fuel =
        none := by
  intro fuel
  induction fuel with
  | zero => intro j _; rfl
  | succ fuel ih =>
    intro j hj
    have hquery := threshModel_query_lt n j (by omega)
    rw [nearest_neighbor_edges, hquery]
    have hmin : minNbrs [([] : List Nbr)] < 1 := by decide
    rw [if_pos hmin, threshModel_nextCutoff]
    exact ih (j + 1) (by omega)

lemma threshModel_some (n : ℕ) :
    ∀ fuel j : ℕ, j + fuel = n →
      nearest_neighbor_edges (threshModel ((2 : ℚ) ^ n)) ((2 : ℚ) ^ j) 1 (fuel + 1) =
        some (buildEdges [[trivialNbr]] 1) := by
  intro fuel
  induction fuel with
  | zero =>
    intro j hj
    have hjn : j = n := by omega
    subst hjn
    have hquery : (threshModel ((2 : ℚ) ^ j)).query ((2 : ℚ) ^ j) = [[trivialNbr]] := by
      simp [threshModel]
    rw [nearest_neighbor_edges, hquery]
    have hmin : ¬ minNbrs [[trivialNbr]] < 1 := by decide
    rw [if_neg hmin]
  | succ fuel ih =>
    intro j hj
    have hquery := threshModel_query_lt n j (by omega)
    rw [nearest_neighbor_edges, hquery]
    have hmin : minNbrs [([] : List Nbr)] < 1 := by decide
    rw [if_pos hmin, threshModel_nextCutoff]
    exact ih (j + 1) (by omega)

/-- C5 counterexample: there is no retry bound that suffices across inputs —
for every candidate bound `N` there is a concrete query model (the
threshold-`2 ^ n` family, a single site that gets its neighbor only once the
cutoff reaches `2 ^ n`) on which the code, started at cutoff 1, is still
retrying after `N + 1` attempts. -/
theorem nearest_neighbor_edges_bound_counterexample :
    ¬ ∃ N : ℕ, ∀ n : ℕ,
      nearest_neighbor_edges (threshModel ((2 : ℚ) ^ n)) 1 1 (N + 1) ≠ none := by
  rintro ⟨N, h⟩
  apply h (N + 1)
  have h0 := threshModel_none (N + 1) (N + 1) 0 (by omega)
  simpa using h0

/-- C5 (amended): the adaptive-cutoff retry is unbounded recursion with no
maximum retry count and no error condition surfaced to the caller: for every
`n`, on the threshold-`2 ^ n` model the code is still retrying after `n`
attempts, yet at attempt `n + 1` it returns an ordinary edge set — never an
error. -/
theorem nearest_neighbor_edges_unbounded (n : ℕ) :
    nearest_neighbor_edges (threshModel ((2 : ℚ) ^ n)) 1 1 n = none ∧
    nearest_neighbor_edges (threshModel ((2 : ℚ) ^ n)) 1 1 (n + 1) =
      some [((0, 0), [((0, 0, 0) : Image)])] := by
  constructor
  · have h0 := threshModel_none n n 0 (by omega)
    simpa using h0
  · have h0 := threshModel_some n n 0 (by omega)
    rw [pow_zero] at h0
    rw [h0]
    rfl

/-- Error classes of the external Voronoi collaborator: `ValueError` (the
recoverable "No Voronoi neighbours found for site" degeneracy, the class the
code catches) or any other exception class. -/
inductive VErr
  | valueError
  | otherError
deriving DecidableEq

/-- One entry of `vnn.get_nn_info`, as the code reads it:
`edge["site_index"]` and `edge["image"]`. -/
structure VEdge where
  site_index : ℕ
  image : Image
deriving DecidableEq

/-- Model of the external collaborator `VoronoiNN`: the bulk call
`get_all_nn_info(structure)` and the per-site call
`get_nn_info(structure, src)`, each either returning neighbor info or
raising an exception. -/
structure VNNModel where
  bulk : Except VErr (List (List VEdge))
  perSite : ℕ → Except VErr (List VEdge)

/-- The canonize-and-insert pass of `voronoi_edges` (data.py lines
255-268): for each site and each of its Voronoi neighbors, canonize
`(src, dst, (0,0,0), image)` and insert the dst image at the canonical
key. -/
def voronoiAccumulate (all_edge_data : List (List VEdge)) : EdgeDict :=
  all_edge_data.enum.foldl
    (fun edges p =>
      p.2.foldl
        (fun edges e =>
          let c := canonize_edge p.1 e.site_index (0, 0, 0) e.image
          insertImage edges (c.1, c.2.1) c.2.2.2)
        edges)
    []

/-- Embedding of `voronoi_edges` (data.py lines 237-268): try the bulk
Voronoi computation for all sites at once; on `ValueError` fall back to
computing neighbor info one site at a time (`len(structure)` calls, whose
errors are not caught); a non-`ValueError` bulk error propagates without
the fallback running. -/
def voronoi_edges (m : VNNModel) (nsites : ℕ) : Except VErr EdgeDict :=
  let all_edge_data :=
    match m.bulk with
    | Except.ok d => Except.ok d
    | Except.error VErr.valueError => (List.range nsites).mapM m.perSite
    | Except.error VErr.otherError => Except.error VErr.otherError
  all_edge_data.map voronoiAccumulate

/-- C8: `voronoi_edges` first attempts the single bulk Voronoi computation;
when it succeeds the per-site fallback is never consulted and the result is
assembled from the bulk data; if and only if the bulk computation fails with
the recoverable `ValueError` degeneracy does it fall back to per-site
computation, whose own failure is not caught and propagates to the caller;
a non-recoverable bulk error propagates without the fallback being
consulted. -/
theorem voronoi_edges_fallback (d : List (List VEdge))
    (p p' : ℕ → Except VErr (List VEdge)) (nsites : ℕ) :
    (voronoi_edges ⟨Except.ok d, p⟩ nsites = Except.ok (voronoiAccumulate d) ∧
      voronoi_edges ⟨Except.ok d, p⟩ nsites =
        voronoi_edges ⟨Except.ok d, p'⟩ nsites) ∧
    (voronoi_edges ⟨Except.error VErr.valueError, p⟩ nsites =
        ((List.range nsites).mapM p).map voronoiAccumulate) ∧
    (∀ e : VErr, (List.range nsites).mapM p = Except.error e →
      voronoi_edges ⟨Except.error VErr.valueError, p⟩ nsites =
        Except.error e) ∧
    (voronoi_edges ⟨Except.error VErr.otherError, p⟩ nsites =
        Except.error VErr.otherError ∧
      voronoi_edges ⟨Except.error VErr.otherError, p⟩ nsites =
        voronoi_edges ⟨Except.error VErr.otherError, p'⟩ nsites) := by
  refine ⟨⟨rfl, rfl⟩, rfl, ?_, ⟨rfl, rfl⟩⟩
  intro e he
  have h2 : voronoi_edges ⟨Except.error VErr.valueError, p⟩ nsites =
      ((List.range nsites).mapM p).map voronoiAccumulate := rfl
  rw [h2, he]
  rfl

/-- Witness for C8: with one site whose per-site call raises a
non-`ValueError` exception after a degenerate bulk call, the error
propagates to the caller as a hard failure. -/
theorem voronoi_edges_fallback_witness :
    voronoi_edges
        ⟨Except.error VErr.valueError, fun _ => Except.error VErr.otherError⟩
        1 =
      Except.error VErr.otherError :=
  (voronoi_edges_fallback [] (fun _ => Except.error VErr.otherError)
      (fun _ => Except.error VErr.otherError) 1).2.2.1 VErr.otherError rfl

/-- The feature scheme names accepted by `_get_node_attributes`
(data.py line 88). -/
def feature_sets : List String := ["atomic_number", "basic", "cfid", "mit"]

/-- Python errors arising inside `dgl_multigraph`: the
`NotImplementedError` of `_get_node_attributes` on an unknown scheme, the
`UnboundLocalError` from reading the never-assigned `edges` variable when
the strategy matches neither branch, a propagated Voronoi exception, and a
marker for the nearest-neighbor recursion never returning (the fuel model's
rendering of nontermination). -/
inductive PyError
  | notImplementedError
  | unboundLocalError
  | voronoiFailure (e : VErr)
  | nnNonterminating
deriving DecidableEq

/-- Embedding of `_get_node_attributes` (data.py lines 85-108), parametrised
over the external per-scheme species lookup tables: raise
`NotImplementedError` unless the scheme is one of `feature_sets`, otherwise
return the scheme's feature vector for the species. -/
def _get_node_attributes (lookup : String → String → List ℚ)
    (species : String) (atom_features : String) : Except PyError (List ℚ) :=
  if atom_features ∈ feature_sets then Except.ok (lookup atom_features species)
  else Except.error PyError.notImplementedError

/-- The observable work steps of `dgl_multigraph`, in execution order:
running a neighbor-edge construction, materializing the undirected edge
data, and computing the node feature rows. -/
inductive Step
  | edgeConstruction
  | undirectedEdgeData
  | nodeFeatures
deriving DecidableEq

/-- Embedding of `dgl_multigraph` (data.py lines 271-306), parametrised over
the neighbor-query and Voronoi collaborator models and the feature lookup.
It returns the trace of work steps performed, paired with either the raised
error or the output (the undirected edge triples and the node feature
rows). The strategy dispatch has no `else` branch in the code: a strategy
matching neither string leaves `edges` unassigned, and the subsequent read
of `edges` raises `UnboundLocalError` before any edge work. -/
def dgl_multigraph (m : NNModel) (fuel : ℕ) (vm : VNNModel) (st : Structure3)
    (species : List String) (lookup : String → String → List ℚ)
    (neighbor_strategy : String) (cutoff : ℚ) (max_neighbors : ℕ)
    (atom_features : String) :
    List Step × Except PyError (List (ℕ × ℕ × Vec3) × List (List ℚ)) :=
  let edges : List Step × Except PyError EdgeDict :=
    if neighbor_strategy = "k-nearest" then
      ([Step.edgeConstruction],
        match nearest_neighbor_edges m cutoff max_neighbors fuel with
        | some ed => Except.ok ed
        | none => Except.error PyError.nnNonterminating)
    else if neighbor_strategy = "voronoi" then
      ([Step.edgeConstruction],
        match voronoi_edges vm st.fracCoords.length with
        | Except.ok ed => Except.ok ed
        | Except.error e => Except.error (PyError.voronoiFailure e))
    else ([], Except.error PyError.unboundLocalError)
  match edges.2 with
  | Except.error e => (edges.1, Except.error e)
  | Except.ok ed =>
    let u_v_r := build_undirected_edgedata st ed
    match species.mapM (fun s => _get_node_attributes lookup s atom_features) with
    | Except.error e =>
      (edges.1 ++ [Step.undirectedEdgeData], Except.error e)
    | Except.ok feats =>
      (edges.1 ++ [Step.undirectedEdgeData, Step.nodeFeatures],
        Except.ok (u_v_r, feats))

/-- A one-site cubic structure with edge length 2 (used as a concrete
structure in several closed statements). -/
def cubicSt : Structure3 := ⟨(2, 0, 0), (0, 2, 0), (0, 0, 2), [(0, 0, 0)]⟩

/-- C7 counterexample: with the k-nearest strategy, one site, and the
unknown feature scheme "bogus", `dgl_multigraph` does raise
`NotImplementedError`, but only after edge construction and undirected-edge
materialization have run — partial work is performed, contradicting the
claim that no edge construction happens before the failure. -/
theorem dgl_multigraph_fail_fast_counterexample :
    (dgl_multigraph (threshModel 1) 1 ⟨Except.ok [], fun _ => Except.ok []⟩
        cubicSt ["Si"] (fun _ _ => [1]) "k-nearest" 1 1 "bogus").2 =
      Except.error PyError.notImplementedError ∧
    Step.edgeConstruction ∈
      (dgl_multigraph (threshModel 1) 1 ⟨Except.ok [], fun _ => Except.ok []⟩
        cubicSt ["Si"] (fun _ _ => [1]) "k-nearest" 1 1 "bogus").1 := by
  constructor
  · rfl
  · decide

/-- C7 (amended): an unknown `neighbor_strategy` makes `dgl_multigraph`
fall through the strategy dispatch silently and fail as an
`UnboundLocalError` when the edge variable is first used, with no edge
construction performed; an unknown `atom_features` scheme (with at least
one site and a succeeding k-nearest edge construction) raises
`NotImplementedError` only after edge construction and undirected-edge
materialization have already been performed. -/
theorem dgl_multigraph_unknown_config (m : NNModel) (fuel : ℕ) (vm : VNNModel)
    (st : Structure3) (species : List String)
    (lookup : String → String → List ℚ) (strategy : String) (cutoff : ℚ)
    (k : ℕ) (scheme : String) :
    (strategy ≠ "k-nearest" → strategy ≠ "voronoi" →
      dgl_multigraph m fuel vm st species lookup strategy cutoff k scheme =
        ([], Except.error PyError.unboundLocalError)) ∧
    (scheme ∉ feature_sets → species ≠ [] →
      ∀ ed, nearest_neighbor_edges m cutoff k fuel = some ed →
        dgl_multigraph m fuel vm st species lookup "k-nearest" cutoff k scheme =
          ([Step.edgeConstruction, Step.undirectedEdgeData],
            Except.error PyError.notImplementedError)) := by
  constructor
  · intro h1 h2
    simp [dgl_multigraph, h1, h2]
  · intro hscheme hsp ed hed
    obtain ⟨s, rest, rfl⟩ := List.exists_cons_of_ne_nil hsp
    simp [dgl_multigraph, hed, List.mapM_cons, _get_node_attributes, hscheme]
    rfl

/-- Witness for C7 (amended): concrete instances — strategy "neither" fails
with no steps performed, and scheme "bogus" on a one-site structure fails
only after both edge-construction steps. -/
theorem dgl_multigraph_unknown_config_witness :
    (dgl_multigraph (threshModel 1) 1 ⟨Except.ok [], fun _ => Except.ok []⟩
        cubicSt ["Si"] (fun _ _ => [1]) "neither" 1 1 "atomic_number" =
      ([], Except.error PyError.unboundLocalError)) ∧
    (dgl_multigraph (threshModel 1) 1 ⟨Except.ok [], fun _ => Except.ok []⟩
        cubicSt ["Si"] (fun _ _ => [1]) "k-nearest" 1 1 "bogus" =
      ([Step.edgeConstruction, Step.undirectedEdgeData],
        Except.error PyError.notImplementedError)) :=
  ⟨(dgl_multigraph_unknown_config (threshModel 1) 1
      ⟨Except.ok [], fun _ => Except.ok []⟩ cubicSt ["Si"] (fun _ _ => [1])
      "neither" 1 1 "atomic_number").1 (by decide) (by decide),
   (dgl_multigraph_unknown_config (threshModel 1) 1
      ⟨Except.ok [], fun _ => Except.ok []⟩ cubicSt ["Si"] (fun _ _ => [1])
      "k-nearest" 1 1 "bogus").2 (by decide) (by decide)
      [((0, 0), [((0, 0, 0) : Image)])] rfl⟩

unseal Rat.mul Rat.add Rat.sub Rat.inv

/-- The integer range `[-n, n]` as a list, in increasing order. -/
def intRange (n : ℕ) : List ℤ :=
  (List.range (2 * n + 1)).map (fun i => (i : ℤ) - (n : ℤ))

/-- Modelled from the spec: the external neighbor query
`structure.get_all_neighbors(cutoff)` (pymatgen, outside this repository)
for the one-site simple cubic lattice with edge length 2.0 and its site at
fractional coordinate (0,0,0) — "query all neighbor sites within `cutoff`
(across all relevant periodic images)". A neighbor record exists for every
nonzero periodic image `v` whose cartesian distance `2‖v‖` is at most the
cutoff; components of relevant images are bounded by `cutoff / 2`.
Distances are recorded by their squares (`4‖v‖²`), an order-preserving
encoding that keeps the model in exact arithmetic; sorting and shell
comparisons are unaffected by the encoding. -/
def cubicQuery (cutoff : ℚ) : List (List Nbr) :=
  let n : ℕ := (⌈cutoff / 2⌉).toNat
  let images := (intRange n).flatMap fun x =>
    (intRange n).flatMap fun y =>
      (intRange n).map fun z => ((x, y, z) : Image)
  [(images.filter fun v =>
      decide (v ≠ ((0, 0, 0) : Image)) &&
        decide (((4 * (v.1 ^ 2 + v.2.1 ^ 2 + v.2.2 ^ 2) : ℤ) : ℚ) ≤ cutoff ^ 2)).map
    (fun v => ⟨((4 * (v.1 ^ 2 + v.2.1 ^ 2 + v.2.2 ^ 2) : ℤ) : ℚ), 0, v⟩)]

/-- Modelled from the spec: the collaborator model for the cubic scenario —
the query above together with the largest lattice cell dimension, 2. -/
def cubicModel : NNModel := ⟨cubicQuery, 2⟩

/-- The six unit periodic images (the ±x, ±y, ±z lattice translations), in
the order the cubic query model enumerates them. -/
def unitImages : List Image :=
  [(-1, 0, 0), (0, -1, 0), (0, 0, -1), (0, 0, 1), (0, 1, 0), (1, 0, 0)]

/-- C9: end-to-end on the simple cubic lattice with edge length 2.0, one
site at (0,0,0), `cutoff = 2.5`, `max_neighbors = 6`: the query finds
exactly 6 periodic-image neighbors, all at cartesian distance 2.0 (squared
distance 4), namely the ±x, ±y, ±z translations; the k-nearest construction
succeeds on the first attempt (fuel 1) and canonicalizes them to the single
EdgeKey (0,0) with the 6 distinct images; materialization yields exactly 12
directed edges, two per image with opposite displacement vectors. -/
theorem cubic_end_to_end :
    cubicQuery (5 / 2) = [unitImages.map (fun v => ⟨4, 0, v⟩)] ∧
    unitImages.Nodup ∧
    nearest_neighbor_edges cubicModel (5 / 2) 6 1 = some [((0, 0), unitImages)] ∧
    build_undirected_edgedata cubicSt [((0, 0), unitImages)] =
      unitImages.flatMap (fun v =>
        [(0, 0, vSmul 2 (imToVec v)), (0, 0, vNeg (vSmul 2 (imToVec v)))]) ∧
    (build_undirected_edgedata cubicSt [((0, 0), unitImages)]).length = 12 := by
  refine ⟨by decide, by decide, by decide, by decide, by decide⟩
